import Mathlib

/-!
Shallow embedding of `src/data_extractor.py` (class `DataExtractor`).

The Python code compiles eight regular expressions (one per category) and
extracts matches with `re.findall`.  We embed the relevant fragment of
Python's `re` semantics: a backtracking matcher with prioritized
alternation (left branch first), greedy quantifiers, word boundaries
(`\b`) and negative lookahead (`(?!...)`), together with the `findall`
scan (leftmost match, resume after the match, advance by one character
after an empty match).  The matcher is totalized with a fuel argument
that bounds backtracking depth; all concrete evaluations in this file use
a fuel large enough that it is never exhausted.
-/

namespace DataExtract

/-- Regular-expression abstract syntax, covering exactly the constructs
used by the eight patterns in `data_extractor.py`: character classes,
concatenation, prioritized alternation, greedy star, word boundary and
negative lookahead.  `?`, `+` and bounded repetition are desugared. -/
inductive Regex where
  | emp : Regex
  | cls (p : Char → Bool) : Regex
  | seq (a b : Regex) : Regex
  | alt (a b : Regex) : Regex
  | star (a : Regex) : Regex
  | wordB : Regex
  | negLook (a : Regex) : Regex

/-- Python `\w`: ASCII letters, digits and underscore (our inputs are ASCII). -/
def isWordChar (c : Char) : Bool := c.isAlpha || c.isDigit || c == '_'

/-- Is the character at position `i` (if any) a word character? -/
def isWordAt (s : List Char) (i : Nat) : Bool :=
  match s[i]? with
  | some c => isWordChar c
  | none => false

/-- Python `\b`: position `i` lies between a word character and a
non-word character (start/end of text count as non-word). -/
def isBoundary (s : List Char) (i : Nat) : Bool :=
  (if i = 0 then false else isWordAt s (i - 1)) != isWordAt s i

/-- Backtracking matcher in continuation-passing style.  `matchR fuel r s
i k` tries to match `r` in `s` starting at position `i` and passes the
end position of each candidate match to the continuation `k`, in the
priority order of Python's engine (alternation: left first; star:
longer first); the first `some` result wins.  `fuel` bounds the
recursion depth; an exhausted fuel yields `none`. -/
def matchR : Nat → Regex → List Char → Nat → (Nat → Option Nat) → Option Nat
  | 0, _, _, _, _ => none
  | fuel + 1, r, s, i, k =>
    match r with
    | .emp => k i
    | .cls p =>
      match s[i]? with
      | some c => if p c then k (i + 1) else none
      | none => none
    | .seq a b => matchR fuel a s i (fun j => matchR fuel b s j k)
    | .alt a b =>
      match matchR fuel a s i k with
      | some j => some j
      | none => matchR fuel b s i k
    | .star a =>
      match matchR fuel a s i
          (fun j => if i < j then matchR fuel (.star a) s j k else none) with
      | some j => some j
      | none => k i
    | .wordB => if isBoundary s i then k i else none
    | .negLook a =>
      match matchR fuel a s i some with
      | some _ => none
      | none => k i

/-- End position of the leftmost-priority match of `r` at position `i`,
if any (Python `pattern.match` at a fixed position). -/
def firstMatchEnd (fuel : Nat) (r : Regex) (s : List Char) (i : Nat) : Option Nat :=
  matchR fuel r s i some

/-- The `findall` scan over positions `i, i+1, ...`: at each position try
the pattern; on a match record its span and resume at the match end
(one past it for an empty match); otherwise move one character right.
`steps` is a structural recursion budget on the number of remaining
scan positions; every step moves the position right by at least one, so
a budget of `s.length + 1 - i` (as supplied by `scanFrom`) never runs
out before the position passes the end of the text. -/
def scanSteps (fuel : Nat) (r : Regex) (s : List Char) : Nat → Nat → List (Nat × Nat)
  | 0, _ => []
  | steps + 1, i =>
    if i ≤ s.length then
      match firstMatchEnd fuel r s i with
      | some j =>
        if i < j then (i, j) :: scanSteps fuel r s steps j
        else (i, j) :: scanSteps fuel r s steps (i + 1)
      | none => scanSteps fuel r s steps (i + 1)
    else []

/-- Scan for matches from position `i` to the end of the text. -/
def scanFrom (fuel : Nat) (r : Regex) (s : List Char) (i : Nat) : List (Nat × Nat) :=
  scanSteps fuel r s (s.length + 1 - i) i

/-- Spans of all matches of `r` in `text`, in scan order. -/
def findallSpans (fuel : Nat) (r : Regex) (text : List Char) : List (Nat × Nat) :=
  scanFrom fuel r text 0

/-- Python `pattern.findall(text)` for a pattern without capturing
groups: the list of matched substrings, in scan order. -/
def findall (fuel : Nat) (r : Regex) (text : List Char) : List (List Char) :=
  (findallSpans fuel r text).map (fun p => (text.drop p.1).take (p.2 - p.1))

/-- Single literal character. -/
def chr (c : Char) : Regex := .cls (fun x => x == c)

/-- Literal string, as a sequence of literal characters. -/
def lit (cs : List Char) : Regex :=
  match cs with
  | [] => .emp
  | c :: rest => .seq (chr c) (lit rest)

/-- Greedy `X?` (present first, as in Python). -/
def opt (a : Regex) : Regex := .alt a .emp

/-- Greedy `X+` = `X X*`. -/
def plus (a : Regex) : Regex := .seq a (.star a)

/-- `X{n}`: exactly `n` copies. -/
def repN : Nat → Regex → Regex
  | 0, _ => .emp
  | n + 1, a => .seq a (repN n a)

/-- Greedy `X{0,n}`: up to `n` copies, longer first. -/
def repUpTo : Nat → Regex → Regex
  | 0, _ => .emp
  | n + 1, a => .alt (.seq a (repUpTo n a)) .emp

/-- Character range class such as `[0-5]`. -/
def rng (lo hi : Char) : Regex := .cls (fun c => lo ≤ c && c ≤ hi)

/-- Python `\d` (ASCII digits on our inputs). -/
def digitC : Regex := .cls Char.isDigit

/-- `[a-zA-Z]`. -/
def alphaC : Regex := .cls Char.isAlpha

/-- Python `\s`: `[ \t\n\r\f\v]`. -/
def isSpaceChar (c : Char) : Bool :=
  c == ' ' || c == '\t' || c == '\n' || c == '\r' || c == '\x0b' || c == '\x0c'

/-- `\s` as a class. -/
def spaceC : Regex := .cls isSpaceChar

/-- `_compile_email_pattern`:
`\b[a-zA-Z0-9._%+-]+@[a-zA-Z0-9.-]+\.[a-zA-Z]{2,}\b`. -/
def emailPat : Regex :=
  .seq .wordB <| .seq (plus (.cls (fun c =>
      c.isAlpha || c.isDigit || c == '.' || c == '_' || c == '%' || c == '+' || c == '-'))) <|
  .seq (chr '@') <| .seq (plus (.cls (fun c =>
      c.isAlpha || c.isDigit || c == '.' || c == '-'))) <|
  .seq (chr '.') <| .seq (.seq alphaC (plus alphaC)) .wordB

/-- `_compile_url_pattern`:
`https?://(?:[-\w.])+(?:\.[a-zA-Z]{2,})+(?:/[^\s]*)?`. -/
def urlPat : Regex :=
  .seq (lit ['h', 't', 't', 'p']) <| .seq (opt (chr 's')) <|
  .seq (lit [':', '/', '/']) <|
  .seq (plus (.cls (fun c => c == '-' || isWordChar c || c == '.'))) <|
  .seq (plus (.seq (chr '.') (.seq alphaC (plus alphaC)))) <|
  opt (.seq (chr '/') (.star (.cls (fun c => !isSpaceChar c))))

/-- `_compile_phone_pattern`:
`(?:\(\d{3}\)\s*\d{3}[-.\s]*\d{4}|\b\d{3}[-.\s]*\d{3}[-.\s]*\d{4}\b)`. -/
def phonePat : Regex :=
  let sep : Regex := .cls (fun c => c == '-' || c == '.' || isSpaceChar c)
  .alt
    (.seq (chr '(') <| .seq (repN 3 digitC) <| .seq (chr ')') <|
     .seq (.star spaceC) <| .seq (repN 3 digitC) <| .seq (.star sep) (repN 4 digitC))
    (.seq .wordB <| .seq (repN 3 digitC) <| .seq (.star sep) <|
     .seq (repN 3 digitC) <| .seq (.star sep) <| .seq (repN 4 digitC) .wordB)

/-- `_compile_credit_card_pattern`: `\b(?:\d{4}[\s-]?){3}\d{4}\b`. -/
def creditCardPat : Regex :=
  .seq .wordB <|
  .seq (repN 3 (.seq (repN 4 digitC) (opt (.cls (fun c => isSpaceChar c || c == '-'))))) <|
  .seq (repN 4 digitC) .wordB

/-- `(?:AM|PM|am|pm)`. -/
def ampm : Regex :=
  .alt (lit ['A', 'M']) (.alt (lit ['P', 'M']) (.alt (lit ['a', 'm']) (lit ['p', 'm'])))

/-- The 12-hour alternative of `_compile_time_pattern`:
`\b(?:1[0-2]|0?[1-9]):[0-5]\d\s?(?:AM|PM|am|pm)\b`. -/
def time12Pat : Regex :=
  .seq .wordB <|
  .seq (.alt (.seq (chr '1') (rng '0' '2')) (.seq (opt (chr '0')) (rng '1' '9'))) <|
  .seq (chr ':') <| .seq (rng '0' '5') <| .seq digitC <|
  .seq (opt spaceC) <| .seq ampm .wordB

/-- The 24-hour alternative of `_compile_time_pattern`:
`\b(?:[01]?\d|2[0-3]):[0-5]\d(?!\s?(?:AM|PM|am|pm))\b`. -/
def time24Pat : Regex :=
  .seq .wordB <|
  .seq (.alt (.seq (opt (.cls (fun c => c == '0' || c == '1'))) digitC)
             (.seq (chr '2') (rng '0' '3'))) <|
  .seq (chr ':') <| .seq (rng '0' '5') <| .seq digitC <|
  .seq (.negLook (.seq (opt spaceC) ampm)) .wordB

/-- `_compile_time_pattern`: the 12-hour alternative, or else the
24-hour alternative. -/
def timePat : Regex := .alt time12Pat time24Pat

/-- `_compile_html_tag_pattern`: `</?[a-zA-Z][^<>]*/?>`. -/
def htmlTagPat : Regex :=
  .seq (chr '<') <| .seq (opt (chr '/')) <| .seq alphaC <|
  .seq (.star (.cls (fun c => !(c == '<' || c == '>')))) <|
  .seq (opt (chr '/')) (chr '>')

/-- `_compile_hashtag_pattern`: `#[a-zA-Z][a-zA-Z0-9_]*`. -/
def hashtagPat : Regex :=
  .seq (chr '#') <| .seq alphaC (.star (.cls (fun c => c.isAlpha || c.isDigit || c == '_')))

/-- `_compile_currency_pattern`:
`\$(?:\d{1,3}(?:,\d{3})*(?:\.\d{2})?|\d+(?:\.\d{2})?)\b`. -/
def currencyPat : Regex :=
  .seq (chr '$') <|
  .seq (.alt
      (.seq (.seq digitC (repUpTo 2 digitC)) <|
       .seq (.star (.seq (chr ',') (repN 3 digitC))) <|
       opt (.seq (chr '.') (repN 2 digitC)))
      (.seq (plus digitC) (opt (.seq (chr '.') (repN 2 digitC)))))
    .wordB

/-- Fuel used for every concrete extraction in this development; large
enough that the matcher never exhausts it on the inputs considered. -/
def FUEL : Nat := 400

/-- `pattern.findall(text)` at the `String` level. -/
def findallS (r : Regex) (text : String) : List String :=
  (findall FUEL r text.data).map (fun cs => String.mk cs)

/-- The `DataExtractor` class: its only field is the `self.patterns`
dict built by `__init__`, an insertion-ordered mapping from category
name to compiled pattern. -/
structure DataExtractor where
  patterns : List (String × Regex)

/-- `DataExtractor.__init__`: the eight compiled patterns, in the
insertion order of the source. -/
def DataExtractor.init : DataExtractor :=
  ⟨[("email", emailPat), ("url", urlPat), ("phone", phonePat),
    ("credit_card", creditCardPat), ("time", timePat), ("html_tag", htmlTagPat),
    ("hashtag", hashtagPat), ("currency", currencyPat)]⟩

/-- Python dict indexing `d[k]`: the value, or a `KeyError` if the key
is absent.  Exceptions are embedded as `Except`. -/
def pyDictGet (d : List (String × Regex)) (k : String) : Except String Regex :=
  match d.lookup k with
  | some v => Except.ok v
  | none => Except.error "KeyError"

/-- `extract_emails`: `self.patterns['email'].findall(text)`. -/
def DataExtractor.extract_emails (ex : DataExtractor) (text : String) :
    Except String (List String) :=
  (pyDictGet ex.patterns "email").map (fun p => findallS p text)

/-- `extract_urls`: `self.patterns['url'].findall(text)`. -/
def DataExtractor.extract_urls (ex : DataExtractor) (text : String) :
    Except String (List String) :=
  (pyDictGet ex.patterns "url").map (fun p => findallS p text)

/-- `extract_phones`: `self.patterns['phone'].findall(text)`. -/
def DataExtractor.extract_phones (ex : DataExtractor) (text : String) :
    Except String (List String) :=
  (pyDictGet ex.patterns "phone").map (fun p => findallS p text)

/-- `extract_credit_cards`: `self.patterns['credit_card'].findall(text)`. -/
def DataExtractor.extract_credit_cards (ex : DataExtractor) (text : String) :
    Except String (List String) :=
  (pyDictGet ex.patterns "credit_card").map (fun p => findallS p text)

/-- `extract_times`: `self.patterns['time'].findall(text)`. -/
def DataExtractor.extract_times (ex : DataExtractor) (text : String) :
    Except String (List String) :=
  (pyDictGet ex.patterns "time").map (fun p => findallS p text)

/-- `extract_html_tags`: `self.patterns['html_tag'].findall(text)`. -/
def DataExtractor.extract_html_tags (ex : DataExtractor) (text : String) :
    Except String (List String) :=
  (pyDictGet ex.patterns "html_tag").map (fun p => findallS p text)

/-- `extract_hashtags`: `self.patterns['hashtag'].findall(text)`. -/
def DataExtractor.extract_hashtags (ex : DataExtractor) (text : String) :
    Except String (List String) :=
  (pyDictGet ex.patterns "hashtag").map (fun p => findallS p text)

/-- `extract_currency`: `self.patterns['currency'].findall(text)`. -/
def DataExtractor.extract_currency (ex : DataExtractor) (text : String) :
    Except String (List String) :=
  (pyDictGet ex.patterns "currency").map (fun p => findallS p text)

/-- The body of the `for data_type, method in extraction_methods.items()`
loop in `extract_all`: run each method under its own `try/except`
boundary; a raised exception becomes an empty list for that category
(plus a printed diagnostic, which has no effect on the result), and the
loop continues with the next category. -/
def runIsolated (methods : List (String × (String → Except String (List String))))
    (text : String) : List (String × List String) :=
  methods.map (fun m =>
    (m.1, match m.2 text with
          | Except.ok v => v
          | Except.error _ => []))

/-- The `extraction_methods` dict literal inside `extract_all`, in the
insertion order of the source. -/
def DataExtractor.extraction_methods (ex : DataExtractor) :
    List (String × (String → Except String (List String))) :=
  [("emails", ex.extract_emails), ("urls", ex.extract_urls),
   ("phones", ex.extract_phones), ("credit_cards", ex.extract_credit_cards),
   ("times", ex.extract_times), ("html_tags", ex.extract_html_tags),
   ("hashtags", ex.extract_hashtags), ("currency", ex.extract_currency)]

/-- `extract_all`: run every registered method over the text, isolating
per-category failures. -/
def DataExtractor.extract_all (ex : DataExtractor) (text : String) :
    List (String × List String) :=
  runIsolated ex.extraction_methods text

/-- One call to `extract_all` as a state transition: the method only
reads `self.patterns` and assigns nothing to `self`, so the post-state
is the pre-state. -/
def DataExtractor.extract_allCall (ex : DataExtractor) (text : String) :
    List (String × List String) × DataExtractor :=
  (ex.extract_all text, ex)

/-- Python `set(xs) == set(ys)` for lists of strings: mutual inclusion
of the underlying sets (order-insensitive, duplicates collapsed). -/
def sameSetB (xs ys : List String) : Bool :=
  xs.all (fun s => ys.contains s) && ys.all (fun s => xs.contains s)

/-- `validate_extraction`: for each expected category, compare the set
of extracted substrings with the expected set; a category absent from
the `extract_all` result validates to `false`. -/
def DataExtractor.validate_extraction (ex : DataExtractor) (text : String)
    (expected : List (String × List String)) : List (String × Bool) :=
  let actual := ex.extract_all text
  expected.map (fun p =>
    (p.1, match actual.lookup p.1 with
          | some act => sameSetB act p.2
          | none => false))

/-! ### Lemmas about the matcher and the scan -/

/-- The matcher never moves left: a successful result always comes from
the continuation applied at a position at or beyond the start. -/
theorem matchR_some (fuel : Nat) :
    ∀ (r : Regex) (s : List Char) (i : Nat) (k : Nat → Option Nat) (res : Nat),
      matchR fuel r s i k = some res → ∃ j, i ≤ j ∧ k j = some res := by
  induction fuel with
  | zero =>
    intro r s i k res h
    simp [matchR] at h
  | succ fuel ih =>
    intro r s i k res h
    cases r with
    | emp => exact ⟨i, Nat.le_refl i, h⟩
    | cls p =>
      simp only [matchR] at h
      split at h
      · split at h
        · exact ⟨i + 1, Nat.le_succ i, h⟩
        · exact Option.noConfusion h
      · exact Option.noConfusion h
    | seq a b =>
      simp only [matchR] at h
      obtain ⟨j, hij, hj⟩ := ih a s i _ res h
      obtain ⟨j2, hj2, hk⟩ := ih b s j k res hj
      exact ⟨j2, Nat.le_trans hij hj2, hk⟩
    | alt a b =>
      simp only [matchR] at h
      split at h
      next j ha =>
        obtain rfl : j = res := Option.some.inj h
        exact ih a s i k _ ha
      next ha =>
        exact ih b s i k res h
    | star a =>
      simp only [matchR] at h
      split at h
      next j0 ha =>
        obtain rfl : j0 = res := Option.some.inj h
        obtain ⟨j, hij, hj⟩ := ih a s i _ _ ha
        split at hj
        next hlt =>
          obtain ⟨j2, hj2, hk⟩ := ih (.star a) s j k _ hj
          exact ⟨j2, Nat.le_trans (Nat.le_of_lt hlt) hj2, hk⟩
        next hlt =>
          exact Option.noConfusion hj
      next ha =>
        exact ⟨i, Nat.le_refl i, h⟩
    | wordB =>
      simp only [matchR] at h
      split at h
      · exact ⟨i, Nat.le_refl i, h⟩
      · exact Option.noConfusion h
    | negLook a =>
      simp only [matchR] at h
      split at h
      next ha => exact Option.noConfusion h
      next ha => exact ⟨i, Nat.le_refl i, h⟩

/-- The end of a match never precedes its start. -/
theorem firstMatchEnd_le (fuel : Nat) (r : Regex) (s : List Char) (i j : Nat)
    (h : firstMatchEnd fuel r s i = some j) : i ≤ j := by
  obtain ⟨j', hij, hk⟩ := matchR_some fuel r s i some j h
  cases hk
  exact hij

/-- Scan invariant: every span starts at or after the scan position,
ends at or after it starts, and the span list is strictly ordered by
start with each span ending before the next begins. -/
theorem scanSteps_invariant (fuel : Nat) (r : Regex) (s : List Char) (steps : Nat) :
    ∀ i : Nat,
      (∀ p ∈ scanSteps fuel r s steps i, i ≤ p.1 ∧ p.1 ≤ p.2) ∧
      (scanSteps fuel r s steps i).Pairwise (fun p q => p.1 < q.1 ∧ p.2 ≤ q.1) := by
  induction steps with
  | zero =>
    intro i
    exact ⟨fun p hp => absurd hp (List.not_mem_nil p), List.Pairwise.nil⟩
  | succ steps ih =>
    intro i
    rw [scanSteps]
    by_cases hle : i ≤ s.length
    · rw [if_pos hle]
      split
      next j hm =>
        have hij : i ≤ j := firstMatchEnd_le fuel r s i j hm
        by_cases hj : i < j
        · rw [if_pos hj]
          obtain ⟨ih1, ih2⟩ := ih j
          constructor
          · intro p hp
            rcases List.mem_cons.mp hp with hcons | htail
            · subst hcons; exact ⟨Nat.le_refl i, hij⟩
            · have := ih1 p htail
              exact ⟨Nat.le_trans hij this.1, this.2⟩
          · refine List.pairwise_cons.mpr ⟨?_, ih2⟩
            intro q hq
            have := (ih1 q hq).1
            exact ⟨Nat.lt_of_lt_of_le hj this, this⟩
        · rw [if_neg hj]
          obtain ⟨ih1, ih2⟩ := ih (i + 1)
          constructor
          · intro p hp
            rcases List.mem_cons.mp hp with hcons | htail
            · subst hcons; exact ⟨Nat.le_refl i, hij⟩
            · have := ih1 p htail
              exact ⟨by omega, this.2⟩
          · refine List.pairwise_cons.mpr ⟨?_, ih2⟩
            intro q hq
            have h1 := (ih1 q hq).1
            have h2 := hij
            exact ⟨by omega, by omega⟩
      next hm =>
        obtain ⟨ih1, ih2⟩ := ih (i + 1)
        refine ⟨fun p hp => ?_, ih2⟩
        have := ih1 p hp
        exact ⟨by omega, this.2⟩
    · rw [if_neg hle]
      exact ⟨fun p hp => absurd hp (List.not_mem_nil p), List.Pairwise.nil⟩

/-- Extracting a span from a list yields a contiguous sublist. -/
theorem take_drop_substring (s : List Char) (a n : Nat) :
    ∃ u v, s = u ++ (s.drop a).take n ++ v :=
  ⟨s.take a, (s.drop a).drop n, by
    rw [List.append_assoc, List.take_append_drop, List.take_append_drop]⟩

/-- Every element of `findall` is a contiguous substring of the text. -/
theorem findall_substring (fuel : Nat) (r : Regex) (text cs : List Char)
    (h : cs ∈ findall fuel r text) : ∃ u v, text = u ++ cs ++ v := by
  rcases List.mem_map.mp h with ⟨p, hp, rfl⟩
  exact take_drop_substring text p.1 (p.2 - p.1)

/-- Every element of `findallS` is a contiguous substring of the text. -/
theorem findallS_substring (r : Regex) (text s : String)
    (h : s ∈ findallS r text) : ∃ u v, text.data = u ++ s.data ++ v := by
  rcases List.mem_map.mp h with ⟨cs, hcs, rfl⟩
  exact findall_substring FUEL r text.data cs hcs

/-- `sameSetB` decides extensional equality of the underlying sets. -/
theorem sameSetB_iff (xs ys : List String) :
    sameSetB xs ys = true ↔ ∀ s : String, s ∈ xs ↔ s ∈ ys := by
  simp only [sameSetB, Bool.and_eq_true, List.all_eq_true, List.contains, List.elem_iff]
  constructor
  · rintro ⟨h1, h2⟩ s
    exact ⟨fun hs => h1 s hs, fun hs => h2 s hs⟩
  · intro h
    exact ⟨fun s hs => (h s).mp hs, fun s hs => (h s).mpr hs⟩

/-! ### The claims -/

/-- C1: `extract_all` (whose loop body is `runIsolated`, applied to the
registered `extraction_methods`) runs every registered method: the
report has one entry per registered category, in order; an entry's
category name and result are fully determined by that category's own
method applied to the text, with a raised fault converted to the empty
list — so a fault in one category neither aborts the call nor affects
any other category's entry. -/
theorem extract_all_isolates_faults
    (methods : List (String × (String → Except String (List String))))
    (text : String) (i : Nat) (name : String)
    (m : String → Except String (List String))
    (hm : methods[i]? = some (name, m)) :
    (runIsolated methods text).length = methods.length ∧
    (runIsolated methods text)[i]? =
      some (name, match m text with
                  | Except.ok v => v
                  | Except.error _ => []) := by
  constructor
  · simp [runIsolated]
  · simp [runIsolated, List.getElem?_map, hm]

/-- A two-method registry whose second method always raises. -/
def demoMethods : List (String × (String → Except String (List String))) :=
  [("good", fun t => Except.ok [t]), ("bad", fun _ => Except.error "boom")]

/-- Witness for C1: with a faulting second method, both entries are
still produced and the faulting one is empty. -/
theorem extract_all_isolates_faults_witness :
    (runIsolated demoMethods "x").length = demoMethods.length ∧
    (runIsolated demoMethods "x")[1]? = some ("bad", []) :=
  extract_all_isolates_faults demoMethods "x" 1 "bad"
    (fun _ => Except.error "boom") rfl

/-- C2 counterexample: the keys of the mapping returned by
`extract_all` are not the eight singular category names of the grammar
registry; already on the empty text the key list differs (the code uses
pluralized names such as `emails`). -/
theorem extract_all_keys_counterexample :
    (DataExtractor.init.extract_all "").map Prod.fst ≠
      ["email", "url", "phone", "credit_card", "time", "html_tag", "hashtag", "currency"] := by
  decide

/-- C2 (amended): for every input text the keys of the mapping returned
by `extract_all` are exactly the eight fixed strings `emails`, `urls`,
`phones`, `credit_cards`, `times`, `html_tags`, `hashtags`, `currency`,
in registration order. -/
theorem extract_all_keys_plural (text : String) :
    (DataExtractor.init.extract_all text).map Prod.fst =
      ["emails", "urls", "phones", "credit_cards", "times", "html_tags",
       "hashtags", "currency"] := rfl

/-- C3 counterexample: on the input with malformed comma grouping the
currency extractor does not return the empty list (it finds the prefix
match instead). -/
theorem currency_malformed_counterexample :
    DataExtractor.init.extract_currency "$1,23.456" ≠ Except.ok [] := by
  intro h
  have h2 : DataExtractor.init.extract_currency "$1,23.456" = Except.ok ["$1"] := rfl
  rw [h2] at h
  injection h with h1
  exact List.noConfusion h1

/-- C3 (amended): on `"Total: $1,234.56"` the currency extractor
returns exactly `["$1,234.56"]`; on `"$1,23.456"` it returns `["$1"]`:
the malformed comma grouping prevents any longer match, but the leading
`$1` satisfies the grammar's plain-digit branch at a word boundary, so
the result is not empty. -/
theorem currency_examples :
    DataExtractor.init.extract_currency "Total: $1,234.56" = Except.ok ["$1,234.56"] ∧
    DataExtractor.init.extract_currency "$1,23.456" = Except.ok ["$1"] :=
  ⟨rfl, rfl⟩

/-- C4: `"2:30 PM"` is matched by the time pattern, and only its
12-hour branch matches it (the 24-hour branch yields nothing on it);
`"14:30"` is matched, and only the 24-hour branch matches it. -/
theorem time_branch_exclusive :
    DataExtractor.init.extract_times "2:30 PM" = Except.ok ["2:30 PM"] ∧
    findallS time12Pat "2:30 PM" = ["2:30 PM"] ∧
    findallS time24Pat "2:30 PM" = [] ∧
    DataExtractor.init.extract_times "14:30" = Except.ok ["14:30"] ∧
    findallS time24Pat "14:30" = ["14:30"] ∧
    findallS time12Pat "14:30" = [] :=
  ⟨rfl, rfl, rfl, rfl, rfl, rfl⟩

/-- C5: the hashtag extractor rejects `"#"` alone and `"#123abc"` (a
digit immediately after `#`), and accepts `"#Tag_1"`. -/
theorem hashtag_examples :
    DataExtractor.init.extract_hashtags "#" = Except.ok [] ∧
    DataExtractor.init.extract_hashtags "#123abc" = Except.ok [] ∧
    DataExtractor.init.extract_hashtags "#Tag_1" = Except.ok ["#Tag_1"] :=
  ⟨rfl, rfl, rfl⟩

/-- C6: for every registered category pattern and every text, the match
spans produced by the `findall` scan are strictly sorted by start
offset, and no two of them overlap (each span ends at or before the
next one starts). -/
theorem matches_sorted_nonoverlapping (name : String) (r : Regex)
    (_hreg : (name, r) ∈ DataExtractor.init.patterns) (text : String) :
    (findallSpans FUEL r text.data).Pairwise (fun p q => p.1 < q.1 ∧ p.2 ≤ q.1) :=
  (scanSteps_invariant FUEL r text.data (text.data.length + 1 - 0) 0).2

/-- Witness for C6: the hashtag category on a text with two matches. -/
theorem matches_sorted_nonoverlapping_witness :
    (findallSpans FUEL hashtagPat "#a #b".data).Pairwise
      (fun p q => p.1 < q.1 ∧ p.2 ≤ q.1) :=
  matches_sorted_nonoverlapping "hashtag" hashtagPat
    (by simp [DataExtractor.init]) "#a #b"

/-- C7: extraction is deterministic and stateless: one `extract_all`
call leaves the extractor unchanged, so a second call on the same
extractor yields an identical report. -/
theorem extract_all_deterministic (ex : DataExtractor) (text : String) :
    (ex.extract_allCall text).1 = ((ex.extract_allCall text).2.extract_allCall text).1 ∧
    (ex.extract_allCall text).2 = ex :=
  ⟨rfl, rfl⟩

/-- C8: on the empty text every per-category extractor returns the
empty list (no error), and `extract_all` maps every category to the
empty list. -/
theorem empty_text_empty_results :
    DataExtractor.init.extract_emails "" = Except.ok [] ∧
    DataExtractor.init.extract_urls "" = Except.ok [] ∧
    DataExtractor.init.extract_phones "" = Except.ok [] ∧
    DataExtractor.init.extract_credit_cards "" = Except.ok [] ∧
    DataExtractor.init.extract_times "" = Except.ok [] ∧
    DataExtractor.init.extract_html_tags "" = Except.ok [] ∧
    DataExtractor.init.extract_hashtags "" = Except.ok [] ∧
    DataExtractor.init.extract_currency "" = Except.ok [] ∧
    DataExtractor.init.extract_all "" =
      [("emails", []), ("urls", []), ("phones", []), ("credit_cards", []),
       ("times", []), ("html_tags", []), ("hashtags", []), ("currency", [])] :=
  ⟨rfl, rfl, rfl, rfl, rfl, rfl, rfl, rfl, rfl⟩

/-- C9 counterexample: `"email"` is a category key known to the engine
(a key of the grammar registry `self.patterns`), and on `"a@b.co"` the
set of substrings the email grammar extracts equals the expected set
`{"a@b.co"}` — yet `validate_extraction` reports `false` for it,
because the `extract_all` report stores the result under the
pluralized key `"emails"`.  So the comparison is not `true` for every
known category with matching sets, contrary to the claim. -/
theorem validate_extraction_counterexample :
    DataExtractor.init.validate_extraction "a@b.co" [("email", ["a@b.co"])] =
      [("email", false)] ∧
    ("email", emailPat) ∈ DataExtractor.init.patterns ∧
    sameSetB (findallS emailPat "a@b.co") ["a@b.co"] = true :=
  ⟨rfl, by simp [DataExtractor.init], rfl⟩

/-- C9 (amended): `validate_extraction` produces, for the `i`-th
expected category, an entry carrying that category's name and a boolean
that is true exactly when the category is present in the `extract_all`
report (under the report's own key names) and the set of extracted
substrings (order-insensitive, duplicates collapsed) equals the
expected set; a category key absent from the report always validates to
false. -/
theorem validate_extraction_spec (ex : DataExtractor) (text : String)
    (expected : List (String × List String)) (i : Nat) (dt : String)
    (exp : List String) (hexp : expected[i]? = some (dt, exp)) :
    ∃ b : Bool,
      (ex.validate_extraction text expected)[i]? = some (dt, b) ∧
      (b = true ↔ ∃ act, (ex.extract_all text).lookup dt = some act ∧
        ∀ s : String, s ∈ act ↔ s ∈ exp) := by
  have hmap : (ex.validate_extraction text expected)[i]? =
      some (dt, match (ex.extract_all text).lookup dt with
                | some act => sameSetB act exp
                | none => false) := by
    simp [DataExtractor.validate_extraction, List.getElem?_map, hexp]
  cases hl : (ex.extract_all text).lookup dt with
  | some act =>
    refine ⟨sameSetB act exp, by rw [hmap]; simp [hl], ?_⟩
    constructor
    · intro hb
      exact ⟨act, rfl, fun s => ((sameSetB_iff act exp).mp hb) s⟩
    · rintro ⟨act', heq, hs⟩
      cases Option.some.inj heq
      exact (sameSetB_iff act exp).mpr hs
  | none =>
    refine ⟨false, by rw [hmap]; simp [hl], ?_⟩
    simp

/-- Witness for C9 at a concrete text and expected mapping. -/
theorem validate_extraction_spec_witness :
    ∃ b : Bool,
      (DataExtractor.init.validate_extraction "#Tag_1"
        [("hashtags", ["#Tag_1"])])[0]? = some ("hashtags", b) ∧
      (b = true ↔ ∃ act,
        (DataExtractor.init.extract_all "#Tag_1").lookup "hashtags" = some act ∧
        ∀ s : String, s ∈ act ↔ s ∈ (["#Tag_1"] : List String)) :=
  validate_extraction_spec DataExtractor.init "#Tag_1"
    [("hashtags", ["#Tag_1"])] 0 "hashtags" ["#Tag_1"] rfl

/-- C10: every string in every per-category list of the `extract_all`
report is a contiguous substring of the input text (the compiled
patterns have no capturing groups, so a match is always the full
matched span). -/
theorem extracted_strings_are_substrings (text name : String) (lst : List String)
    (hmem : (name, lst) ∈ DataExtractor.init.extract_all text)
    (s : String) (hs : s ∈ lst) :
    ∃ u v : List Char, text.data = u ++ s.data ++ v := by
  have hpats : DataExtractor.init.extract_all text =
      [("emails", findallS emailPat text), ("urls", findallS urlPat text),
       ("phones", findallS phonePat text), ("credit_cards", findallS creditCardPat text),
       ("times", findallS timePat text), ("html_tags", findallS htmlTagPat text),
       ("hashtags", findallS hashtagPat text), ("currency", findallS currencyPat text)] := rfl
  rw [hpats] at hmem
  simp only [List.mem_cons, List.not_mem_nil, or_false] at hmem
  rcases hmem with h | h | h | h | h | h | h | h <;>
    (injection h with h1 h2; subst h2; exact findallS_substring _ text s hs)

/-- Witness for C10: a hashtag extracted from a larger text is one of
its substrings. -/
theorem extracted_strings_are_substrings_witness :
    ∃ u v : List Char, "a #x b".data = u ++ "#x".data ++ v :=
  extracted_strings_are_substrings "a #x b" "hashtags" ["#x"]
    (by decide) "#x" (by decide)

end DataExtract
